import Mathlib

/-!
Verification of the subhosting IDE starter: a shallow embedding of
the URL joiner (`urlJoin` / `normalize`), the Subhosting API client
(`Client`), the server route for `GET /deployments`, and the browser
polling/rendering logic (`pollData` / `setDeployments`), together with
theorems settling the specification claims C1..C10.

Strings are manipulated at the `List Char` level; `String` wraps the
character list at function boundaries.
-/

namespace Subhosting

instance {ε α : Type} [DecidableEq ε] [DecidableEq α] : DecidableEq (Except ε α) := fun x y =>
  match x, y with
  | .ok a, .ok b =>
    if h : a = b then .isTrue (h ▸ rfl) else .isFalse (fun hc => h (Except.ok.inj hc))
  | .error a, .error b =>
    if h : a = b then .isTrue (h ▸ rfl) else .isFalse (fun hc => h (Except.error.inj hc))
  | .ok _, .error _ => .isFalse (fun hc => Except.noConfusion hc)
  | .error _, .ok _ => .isFalse (fun hc => Except.noConfusion hc)

abbrev Chars := List Char

/-- A JavaScript value passed as a URL segment: either a string, or a
non-string value (`other`), carrying the string it coerces to when used
in string concatenation (e.g. the number 42 coerces to "42"). -/
inductive Seg where
  | str (s : String)
  | other (coerced : String)
deriving DecidableEq

/-- JS string-concatenation coercion of a segment value. -/
def Seg.coerce : Seg → String
  | .str s => s
  | .other c => c

/-- `typeof component === "string"` test. -/
def Seg.isStr : Seg → Bool
  | .str _ => true
  | .other _ => false

/-- `component.replace(/^[\/]+/, "")`. -/
def dropLeadingSlashes (l : Chars) : Chars := l.dropWhile (fun c => c == '/')

/-- `component.replace(/[\/]+$/, "")`. -/
def dropTrailingSlashes (l : Chars) : Chars :=
  (l.reverse.dropWhile (fun c => c == '/')).reverse

/-- `component.replace(/[\/]+$/, "/")`: a run of trailing slashes collapses
to a single slash; a string with no trailing slash is unchanged. -/
def collapseTrailingSlashes (l : Chars) : Chars :=
  if l.getLast? = some '/' then dropTrailingSlashes l ++ ['/'] else l

/-- Split a string as `^([^/:]+):` followed by the remainder: the scheme
part (nonempty, no '/' or ':') and the text after the colon. `none` when
the string does not start with `scheme:`. -/
def schemeSplit (l : Chars) : Option (Chars × Chars) :=
  let pre := l.takeWhile (fun c => c != '/' && c != ':')
  if pre.isEmpty then none
  else
    match l.drop pre.length with
    | ':' :: r => some (pre, r)
    | _ => none

/-- `strArray[0].match(/^[^\/:]+:\/*$/)`: a bare scheme, i.e. the whole
string is a scheme name, a colon, and zero or more slashes. -/
def bareScheme (l : Chars) : Bool :=
  match schemeSplit l with
  | some (_, r) => r.all (fun c => c == '/')
  | none => false

/-- `s.replace(/^([^\/:]+):\/*/, "$1://")`. -/
def protoReplace (l : Chars) : Chars :=
  match schemeSplit l with
  | some (pre, r) => pre ++ [':', '/', '/'] ++ r.dropWhile (fun c => c == '/')
  | none => l

/-- `s.replace(/^([^\/:]+):\/*/, "$1:///")` (the `file` scheme branch). -/
def fileProtoReplace (l : Chars) : Chars :=
  match schemeSplit l with
  | some (pre, r) => pre ++ [':', '/', '/', '/'] ++ r.dropWhile (fun c => c == '/')
  | none => l

/-- The first-component protocol normalization: the `file:///` test
(`/^file:\/\/\//`) selects three slashes, anything else two. -/
def fpReplace (l : Chars) : Chars :=
  if l.take 8 = ("file:///".data) then fileProtoReplace l else protoReplace l

/-- One left-to-right scan for `str.replace(/\/(\?|&|#[^!])/g, "$1")`.
The Bool records whether the scanner sits just after a '/' that may
start a match; scanning resumes after each replaced occurrence. -/
def postReplaceAux : Bool → Chars → Chars
  | false, [] => []
  | false, '/' :: rest => postReplaceAux true rest
  | false, c :: rest => c :: postReplaceAux false rest
  | true, [] => ['/']
  | true, '?' :: rest => '?' :: postReplaceAux false rest
  | true, '&' :: rest => '&' :: postReplaceAux false rest
  | true, '#' :: [] => ['/', '#']
  | true, '#' :: '!' :: rest => '/' :: '#' :: '!' :: postReplaceAux false rest
  | true, '#' :: e :: rest => '#' :: e :: postReplaceAux false rest
  | true, '/' :: rest => '/' :: postReplaceAux true rest
  | true, c :: rest => '/' :: c :: postReplaceAux false rest

/-- `str.replace(/\/(\?|&|#[^!])/g, "$1")`: removes a slash that
immediately precedes '?', '&', or '#' followed by a character other
than '!', in one global left-to-right pass. -/
def postReplace (l : Chars) : Chars := postReplaceAux false l

/-- JS `str.split("?")` at the character-list level: always returns at
least one part; `"".split` gives `[[]]`. -/
def splitOn (sep : Char) : Chars → List Chars
  | [] => [[]]
  | x :: xs =>
    if x = sep then [] :: splitOn sep xs
    else
      match splitOn sep xs with
      | h :: t => (x :: h) :: t
      | [] => [[x]]

/-- `parts.shift() + (parts.length > 0 ? "?" : "") + parts.join("&")`:
keeps only the first '?' as the query delimiter and joins the remaining
'?'-separated parts with '&'. -/
def queryMergeL (l : Chars) : Chars :=
  match splitOn '?' l with
  | [] => []
  | p :: ps => if ps.isEmpty then p else p ++ '?' :: List.intercalate ['&'] ps

/-- The TypeError message thrown by `normalize`. -/
def typeErrMsg (c : String) : String := "Url must be a string. Received " ++ c

/-- The bare-scheme merge: when the first element is a bare scheme and
more elements follow, the first element is shifted off and concatenated
onto the (string-coerced) second element. -/
def mergeStep (h : String) (rest : List Seg) : String × List Seg :=
  match rest with
  | r0 :: rtail =>
    if bareScheme h.data then (h ++ Seg.coerce r0, rtail) else (h, rest)
  | [] => (h, [])

/-- The component loop of `normalize`: type-checks each component, skips
empty components, strips leading slashes from non-first components,
strips trailing slashes from non-last components and collapses trailing
slashes of the last component to one. -/
def processComps : List Seg → Bool → Except String (List Chars)
  | [], _ => .ok []
  | .other co :: _, _ => .error (typeErrMsg co)
  | .str s :: rest, isFirst =>
    if s.data.isEmpty then processComps rest false
    else
      let c1 := if isFirst then s.data else dropLeadingSlashes s.data
      let c2 := if rest.isEmpty then collapseTrailingSlashes c1
                else dropTrailingSlashes c1
      match processComps rest false with
      | .error e => .error e
      | .ok cs => .ok (c2 :: cs)

/-- `normalize(strArray)` from the source: empty input gives "", a
non-string first element throws, the bare-scheme merge and protocol
normalization are applied to the head, the components are processed and
joined with '/', then slash-before-query removal and query merging run. -/
def normalize (strArray : List Seg) : Except String String :=
  match strArray with
  | [] => .ok ""
  | .other co :: _ => .error (typeErrMsg co)
  | .str h :: rest =>
    let m := mergeStep h rest
    let h1 : Chars := fpReplace m.1.data
    match processComps (Seg.str ⟨h1⟩ :: m.2) true with
    | .error e => .error e
    | .ok comps =>
      .ok ⟨queryMergeL (postReplace (List.intercalate ['/'] comps))⟩

/-- `urlJoin(...args)`: both call shapes (variadic strings, or a single
array argument, detected via `typeof args[0] === "object"`) reduce to
`normalize` of the segment list; calling with no arguments passes the
empty list. -/
def urlJoin (segs : List Seg) : Except String String := normalize segs

/-! ## The Subhosting API client (`subhosting.ts`) -/

/-- `ClientOptions` as passed to the constructor: `endpoint` is optional. -/
structure ClientOptions where
  endpoint : Option String
deriving DecidableEq

/-- The client options after `Object.assign({endpoint: ...}, options)`:
the endpoint is always present. -/
structure ResolvedClientOptions where
  endpoint : String
deriving DecidableEq

/-- The `Client` state after successful construction. -/
structure Client where
  accessToken : String
  orgId : String
  clientOptions : ResolvedClientOptions
deriving DecidableEq

/-- The default API endpoint. -/
def defaultEndpoint : String := "https://api.deno.com/v1"

/-- JS nullish coalescing `a ?? b`: falls back only on null/undefined
(`none`); an empty string on the left is kept. -/
def nullish (a b : Option String) : Option String :=
  match a with
  | some x => some x
  | none => b

/-- Error message thrown when the access token cannot be resolved. -/
def tokenRequiredMsg : String :=
  "A Deno Deploy access token is required (or set DEPLOY_ACCESS_TOKEN env variable)."

/-- Error message thrown when the org ID cannot be resolved. -/
def orgRequiredMsg : String :=
  "Deno Subhosting org ID is required (or set DEPLOY_ORG_ID env variable)."

/-- The `Client` constructor. `envToken` and `envOrg` model
`Deno.env.get("DEPLOY_ACCESS_TOKEN")` and `Deno.env.get("DEPLOY_ORG_ID")`.
`at = accessToken ?? env; if (!at) throw` — `!at` is true exactly for
undefined and the empty string; likewise for the org id. On success the
resolved values are stored unchanged and the endpoint defaults. -/
def Client.construct (accessToken orgId : Option String)
    (envToken envOrg : Option String) (options : Option ClientOptions) :
    Except String Client :=
  match nullish accessToken envToken with
  | none => .error tokenRequiredMsg
  | some a =>
    if a = "" then .error tokenRequiredMsg
    else
      match nullish orgId envOrg with
      | none => .error orgRequiredMsg
      | some o =>
        if o = "" then .error orgRequiredMsg
        else
          .ok { accessToken := a, orgId := o,
                clientOptions :=
                  { endpoint :=
                      ((options.map ClientOptions.endpoint).join).getD defaultEndpoint } }

/-- `RequestInit`: the fetch options used by the client. -/
structure RequestInit where
  method : Option String
  headers : List (String × String)
  body : Option String
deriving DecidableEq

/-- The empty `RequestInit` (`options` omitted). -/
def emptyInit : RequestInit := { method := none, headers := [], body := none }

/-- The outbound HTTP request a client method builds. -/
structure Request where
  url : String
  method : Option String
  headers : List (String × String)
  body : Option String
deriving DecidableEq

/-- Set a key in a JS-object-like association list: replace in place if
present, append otherwise. -/
def setKey : List (String × String) → String → String → List (String × String)
  | [], k, v => [(k, v)]
  | (k0, v0) :: rest, k, v =>
    if k0 = k then (k0, v) :: rest else (k0, v0) :: setKey rest k v

/-- `Object.assign(base, extra)` over association lists: keys of `extra`
override `base` in place or are appended. -/
def jsAssign (base extra : List (String × String)) : List (String × String) :=
  extra.foldl (fun acc kv => setKey acc kv.1 kv.2) base

/-- `Client.fetch(url, options)`: joins the configured endpoint with the
url via `urlJoin`, merges the default Authorization / Content-Type
headers with the caller's, and issues the request. A `urlJoin` throw
propagates. -/
def Client.fetch (c : Client) (url : String) (options : RequestInit) :
    Except String Request :=
  match urlJoin [Seg.str c.clientOptions.endpoint, Seg.str url] with
  | .error e => .error e
  | .ok finalUrl =>
    .ok { url := finalUrl,
          method := options.method,
          headers := jsAssign
            [("Authorization", "Bearer " ++ c.accessToken),
             ("Content-Type", "application/json")] options.headers,
          body := options.body }

/-- `Client.fetchUrl(url, options)` exactly as written in the source:
`return await this.fetch(url, options);`. -/
def Client.fetchUrl (c : Client) (url : String) (options : RequestInit) :
    Except String Request :=
  c.fetch url options

/-- `new URLSearchParams(query).toString()` for the plain key/value
queries used here (percent-encoding is not exercised by the claims). -/
def urlSearchParams (q : List (String × String)) : String :=
  String.intercalate "&" (q.map fun kv => kv.1 ++ "=" ++ kv.2)

/-- `Client.listDeployments(projectId, query)`: GET
`/projects/{projectId}/deployments?{query}`. -/
def Client.listDeployments (c : Client) (projectId : String)
    (query : List (String × String)) : Except String Request :=
  c.fetch ("/projects/" ++ projectId ++ "/deployments?" ++ urlSearchParams query)
    { method := some "GET", headers := [], body := none }

/-! ## The server route `GET /deployments` (`main.tsx`) -/

/-- JS `x || d` for an optional string: undefined and "" fall back. -/
def jsOr (o : Option String) (d : String) : String :=
  match o with
  | some s => if s = "" then d else s
  | none => d

/-- The `GET /deployments` handler: reads `projectId` from the browser
query (`c.req.query("projectId") || ""`) and calls
`listDeployments(projectId, { order: "desc" })`. -/
def deploymentsRoute (c : Client) (reqQuery : List (String × String)) :
    Except String Request :=
  let projectId := jsOr (reqQuery.lookup "projectId") ""
  c.listDeployments projectId [("order", "desc")]

/-! ## The browser UI controller (`static/app.js`) -/

/-- A deployment record as rendered by the browser. -/
structure Deployment where
  domains : List String
  status : String
  updatedAt : String
deriving DecidableEq

/-- The browser state touched by the polling code: the `#deployments`
panel's innerHTML, the selected project id, and the console error log. -/
structure Dom where
  deploymentsHtml : String
  projectListValue : String
  consoleErrors : List String
deriving DecidableEq

/-- JS template-literal interpolation of a possibly-undefined value:
`undefined` prints as "undefined". -/
def jsTemplate (o : Option String) : String :=
  match o with
  | some s => s
  | none => "undefined"

/-- `deployment.domains[0] || "URL pending..."`. -/
def domainOrPending (domains : List String) : String :=
  match domains.head? with
  | some s => if s = "" then "URL pending..." else s
  | none => "URL pending..."

/-- The placeholder shown when there are no deployments. -/
def noDeploymentsHtml : String := "<p>No deployments for this project.</p>"

/-- The HTML template for one deployment line. -/
def renderDeployment (d : Deployment) : String :=
  "<div class=\"deployment-line\">\n        <a href=\"https://" ++
    jsTemplate d.domains.head? ++ "\" target=\"_blank\">\n          " ++
    domainOrPending d.domains ++
    "\n        </a>\n        <span class=\"timestamp\">\n          <span class=\"status " ++
    d.status ++ "\">" ++ d.status ++ "</span>\n          " ++ d.updatedAt ++
    "\n        </span>\n      </div>"

/-- `setDeployments(deployments)`: a missing or empty list writes the
placeholder paragraph into the panel; a non-empty list writes the
accumulated per-deployment HTML. -/
def setDeployments (deployments : Option (List Deployment)) (dom : Dom) : Dom :=
  match deployments with
  | none => { dom with deploymentsHtml := noDeploymentsHtml }
  | some l =>
    if l.length < 1 then { dom with deploymentsHtml := noDeploymentsHtml }
    else
      { dom with deploymentsHtml :=
          l.foldl (fun html d => html ++ renderDeployment d) "" }

/-- `pollData()`: the combined `fetch` + `.json()` outcome is the
`fetchResult` oracle. The whole body sits in `try { ... } catch (e)
{ console.error(e) }`, so a failure only appends to the console log and
a success runs `setDeployments`. -/
def pollData (fetchResult : Except String (Option (List Deployment)))
    (dom : Dom) : Dom :=
  match fetchResult with
  | .error e => { dom with consoleErrors := dom.consoleErrors ++ [e] }
  | .ok deployments => setDeployments deployments dom

/-! ## Auxiliary definitions used by the theorem statements -/

/-- Whether an `Except` computation succeeded (did not throw). -/
def exceptIsOk {α : Type} : Except String α → Bool
  | .ok _ => true
  | .error _ => false

/-- The segment list after the bare-scheme merge of `normalize`; the
merged first element is a string even when the absorbed second element
was not. -/
def afterMerge (l : List Seg) : List Seg :=
  match l with
  | .str h :: rest =>
    let m := mergeStep h rest
    .str m.1 :: m.2
  | l => l

/-- An option resolves to a non-empty string. -/
def resolvesNonEmpty (o : Option String) : Prop := ∃ s, o = some s ∧ s ≠ ""

/-- A concrete client for evaluating request-building methods. -/
def testClient : Client :=
  { accessToken := "token", orgId := "org",
    clientOptions := { endpoint := defaultEndpoint } }

/-- A fully qualified URL such as a pagination link from a prior
response. -/
def pageUrl : String := "https://api.deno.com/v1/organizations/org/projects?page=2"

/-- The URL `fetchUrl` actually requests for `pageUrl`: the configured
endpoint joined with the already-complete URL. -/
def joinedPageUrl : String :=
  "https://api.deno.com/v1/https://api.deno.com/v1/organizations/org/projects?page=2"

/-- A concrete browser state for witnesses. -/
def testDom : Dom :=
  { deploymentsHtml := "<p>old</p>", projectListValue := "p1", consoleErrors := [] }

/-! ## Theorems for the claims -/

/-- C10: urlJoin applied to an empty segment list (no arguments, or a
single empty array argument — both call forms pass the empty list to
`normalize`) returns the empty string without throwing. -/
theorem urlJoin_empty_list : urlJoin [] = .ok "" := by decide

/-- C2 counterexample: at the spec's own example input,
`urlJoin("http://a", "b?x=1", "c?y=2")` does not return
`"http://a/b/c?x=1&y=2"`; the "/c" segment stays inside the first query
parameter, so the claimed equality is false. -/
theorem urlJoin_query_example_cex :
    urlJoin [Seg.str "http://a", Seg.str "b?x=1", Seg.str "c?y=2"] ≠
      Except.ok "http://a/b/c?x=1&y=2" := by decide

/-- C2 amended: `urlJoin("http://a", "b?x=1", "c?y=2")` returns exactly
`"http://a/b?x=1/c&y=2"`: the segments are joined with single slashes,
only the first "?" is kept as the query delimiter and the second "?" is
merged as an "&"-joined parameter, but the joined "/c" remains inside
the first query parameter rather than being moved before the query
string. -/
theorem urlJoin_query_example_actual :
    urlJoin [Seg.str "http://a", Seg.str "b?x=1", Seg.str "c?y=2"] =
      Except.ok "http://a/b?x=1/c&y=2" := by decide

/-- C4 counterexample: the segment list `["http:", 42]` contains a
non-string element, yet urlJoin does not throw: the bare-scheme merge
string-coerces the second element before the loop's type check, and the
call returns "http://42". -/
theorem urlJoin_nonstring_no_throw :
    urlJoin [Seg.str "http:", Seg.other "42"] = Except.ok "http://42" := by decide

/-- C1: for the fully qualified URL `pageUrl`, `fetchUrl` does not
bypass endpoint joining: it is literally `fetch(url, options)`, so the
outbound request is issued to `urlJoin(endpoint, pageUrl)` — the
endpoint prepended to the complete URL — and not to `pageUrl` itself. -/
theorem fetchUrl_does_not_bypass_join :
    Client.fetchUrl testClient pageUrl emptyInit =
      Client.fetch testClient pageUrl emptyInit ∧
    (Client.fetchUrl testClient pageUrl emptyInit).map Request.url =
      Except.ok joinedPageUrl ∧
    joinedPageUrl ≠ pageUrl := by
  refine ⟨rfl, by decide, by decide⟩

/-- C6: when the poll's request or response parsing fails, `pollData`
catches the error, appends it to the console log, does not rethrow (it
is a total function into `Dom`), and leaves the deployments panel's
rendered content — and the rest of the browser state — exactly as it
was before the poll. -/
theorem pollData_error_spec (e : String) (dom : Dom) :
    pollData (.error e) dom =
      { dom with consoleErrors := dom.consoleErrors ++ [e] } ∧
    (pollData (.error e) dom).deploymentsHtml = dom.deploymentsHtml :=
  ⟨rfl, rfl⟩

/-- C8: an explicit empty-string accessToken or orgId argument makes
construction throw even when the corresponding environment variable
(DEPLOY_ACCESS_TOKEN resp. DEPLOY_ORG_ID) holds a non-empty value: `??`
keeps the empty string, and the `!at` / `!org` check rejects it. -/
theorem client_empty_arg_throws (envOrg : Option String)
    (opts : Option ClientOptions) (s t : String) (_hs : s ≠ "") (ht : t ≠ "") :
    Client.construct (some "") (some "org") (some s) envOrg opts =
      .error tokenRequiredMsg ∧
    Client.construct (some t) (some "") (some s) (some s) opts =
      .error orgRequiredMsg := by
  constructor
  · rfl
  · simp [Client.construct, nullish, ht]

/-- C8 witness: the theorem applied at DEPLOY_ACCESS_TOKEN = "x",
explicit empty-string arguments, and a non-empty explicit token "y". -/
theorem client_empty_arg_throws_witness :
    Client.construct (some "") (some "org") (some "x") none none =
      .error tokenRequiredMsg ∧
    Client.construct (some "y") (some "") (some "x") (some "x") none =
      .error orgRequiredMsg :=
  client_empty_arg_throws none none "x" "y" (by decide) (by decide)

/-- C9: the `GET /deployments` handler always calls `listDeployments`
with the fixed query `{order: "desc"}`, whatever the browser's query
string contains — in particular an "order" parameter sent by the
browser does not change the built request. -/
theorem deploymentsRoute_fixed_order :
    (∀ (c : Client) (q : List (String × String)),
      deploymentsRoute c q =
        c.listDeployments (jsOr (q.lookup "projectId") "") [("order", "desc")]) ∧
    (∀ (c : Client) (q : List (String × String)) (v : String),
      deploymentsRoute c (("order", v) :: q) = deploymentsRoute c q) := by
  constructor
  · intro c q
    rfl
  · intro c q v
    have h : (("order" : String) == "projectId") = false := by decide
    simp [deploymentsRoute, List.lookup, h]

/-- C3: construction throws exactly when the access token or the org id
does not resolve (argument first, environment fallback via `??`) to a
non-empty string; on success the `accessToken` and `orgId` fields hold
the resolved literal values unchanged. -/
theorem client_construct_spec (aT oI eT eO : Option String)
    (opts : Option ClientOptions) :
    match Client.construct aT oI eT eO opts with
    | .ok c =>
        nullish aT eT = some c.accessToken ∧ c.accessToken ≠ "" ∧
        nullish oI eO = some c.orgId ∧ c.orgId ≠ ""
    | .error _ =>
        ¬ resolvesNonEmpty (nullish aT eT) ∨ ¬ resolvesNonEmpty (nullish oI eO) := by
  cases h1 : nullish aT eT with
  | none => simp [Client.construct, h1, resolvesNonEmpty]
  | some a =>
    cases h2 : nullish oI eO with
    | none =>
      by_cases ha : a = ""
      · subst ha
        simp [Client.construct, h1, h2, resolvesNonEmpty]
      · simp [Client.construct, h1, h2, ha, resolvesNonEmpty]
    | some o =>
      by_cases ha : a = ""
      · subst ha
        simp [Client.construct, h1, h2, resolvesNonEmpty]
      · by_cases ho : o = ""
        · subst ho
          simp [Client.construct, h1, h2, ha, resolvesNonEmpty]
        · simp [Client.construct, h1, h2, ha, ho, resolvesNonEmpty]

/-- C3 witness: the theorem at explicit token "tok" and org "org" with
no environment fallback; construction succeeds and stores both values. -/
theorem client_construct_spec_witness :
    nullish (some "tok") none = some "tok" ∧ ("tok" : String) ≠ "" ∧
    nullish (some "org") none = some "org" ∧ ("org" : String) ≠ "" :=
  client_construct_spec (some "tok") (some "org") none none none

/-- Folding string concatenation from an arbitrary accumulator factors
the accumulator out front. -/
theorem strFoldlFactor (ss : List String) :
    ∀ a : String,
      ss.foldl (fun r t => r ++ t) a = a ++ ss.foldl (fun r t => r ++ t) "" := by
  induction ss with
  | nil => intro a; simp [String.append_empty]
  | cons x xs ih =>
    intro a
    simp only [List.foldl_cons]
    rw [ih (a ++ x), ih ("" ++ x), String.empty_append, String.append_assoc]

/-- `String.join` on a cons peels off the head. -/
theorem strJoin_cons (s : String) (ss : List String) :
    String.join (s :: ss) = s ++ String.join ss := by
  show (s :: ss).foldl (fun r t => r ++ t) "" = s ++ ss.foldl (fun r t => r ++ t) ""
  rw [List.foldl_cons, String.empty_append, strFoldlFactor]

/-- When a string starts with the two characters "<d", so does any
extension of it on the right. -/
theorem take_two_of_append (a b : String) (h : a.data.take 2 = ['<', 'd']) :
    (a ++ b).data.take 2 = ['<', 'd'] := by
  have hlen : 2 ≤ a.data.length := by
    have h2 := congrArg List.length h
    simp only [List.length_take, List.length_cons, List.length_nil] at h2
    omega
  rw [String.data_append, List.take_append_of_le_length hlen, h]

/-- C7: a missing or empty deployments value writes exactly the
placeholder paragraph "No deployments for this project." into the
panel (never an empty list container), and a non-empty list writes the
concatenation of one rendered entry per deployment, which is never the
placeholder. -/
theorem setDeployments_spec :
    (∀ dom, (setDeployments none dom).deploymentsHtml = noDeploymentsHtml) ∧
    (∀ dom, (setDeployments (some []) dom).deploymentsHtml = noDeploymentsHtml) ∧
    (∀ (dom : Dom) (d : Deployment) (ds : List Deployment),
      (setDeployments (some (d :: ds)) dom).deploymentsHtml =
        String.join ((d :: ds).map renderDeployment) ∧
      (setDeployments (some (d :: ds)) dom).deploymentsHtml ≠ noDeploymentsHtml) := by
  refine ⟨fun dom => rfl, fun dom => rfl, fun dom d ds => ?_⟩
  have h1 : (setDeployments (some (d :: ds)) dom).deploymentsHtml =
      String.join ((d :: ds).map renderDeployment) := by
    show (d :: ds).foldl (fun html x => html ++ renderDeployment x) "" =
      ((d :: ds).map renderDeployment).foldl (fun r t => r ++ t) ""
    rw [List.foldl_map]
  refine ⟨h1, ?_⟩
  intro hEq
  rw [h1, List.map_cons, strJoin_cons] at hEq
  have h4 := congrArg (fun s => s.data.take 2) hEq
  simp only at h4
  have h3 : (renderDeployment d ++
      String.join (ds.map renderDeployment)).data.take 2 = ['<', 'd'] := by
    apply take_two_of_append
    unfold renderDeployment
    repeat apply take_two_of_append
    decide
  rw [h3] at h4
  exact absurd h4 (by decide)

/-- C7 witness: the theorem applied at a concrete state and a concrete
one-deployment list. -/
theorem setDeployments_spec_witness :
    (setDeployments none testDom).deploymentsHtml = noDeploymentsHtml :=
  setDeployments_spec.1 testDom

/-- The component loop succeeds exactly when every component is a
string. -/
theorem processComps_isOk (l : List Seg) :
    ∀ b : Bool, exceptIsOk (processComps l b) = l.all Seg.isStr := by
  induction l with
  | nil => intro b; rfl
  | cons s rest ih =>
    intro b
    cases s with
    | other c => rfl
    | str s =>
      simp only [processComps]
      by_cases he : s.data.isEmpty
      · rw [if_pos he, ih false]
        simp [Seg.isStr]
      · rw [if_neg he]
        cases hr : processComps rest false with
        | error e =>
          have h2 := ih false
          rw [hr] at h2
          simp only [List.all_cons, Seg.isStr, Bool.true_and]
          exact h2
        | ok cs =>
          have h2 := ih false
          rw [hr] at h2
          simp only [List.all_cons, Seg.isStr, Bool.true_and]
          exact h2

/-- The bare-scheme merge of an all-string list is all-string. -/
theorem afterMerge_all (l : List Seg) (h : l.all Seg.isStr = true) :
    (afterMerge l).all Seg.isStr = true := by
  cases l with
  | nil => rfl
  | cons s rest =>
    cases s with
    | other c => simp [Seg.isStr] at h
    | str s0 =>
      cases rest with
      | nil => rfl
      | cons r0 rtail =>
        simp only [afterMerge, mergeStep]
        by_cases hb : bareScheme s0.data
        · rw [if_pos hb]
          simp only [List.all_cons, Seg.isStr, Bool.true_and, Bool.and_eq_true] at h ⊢
          exact h.2
        · rw [if_neg hb]
          exact h

/-- C4 amended: urlJoin throws a TypeError exactly when the segment list
still contains a non-string element after the bare-scheme merge, which
string-coerces the second element into the first when the first is a
bare scheme and more segments follow; consequently every all-string
segment list returns a string without throwing. -/
theorem urlJoin_throw_characterization :
    (∀ l : List Seg, exceptIsOk (urlJoin l) = (afterMerge l).all Seg.isStr) ∧
    (∀ l : List Seg, l.all Seg.isStr = true → exceptIsOk (urlJoin l) = true) := by
  have hmain : ∀ l : List Seg,
      exceptIsOk (urlJoin l) = (afterMerge l).all Seg.isStr := by
    intro l
    cases l with
    | nil => rfl
    | cons s rest =>
      cases s with
      | other c => rfl
      | str h =>
        show exceptIsOk (normalize (Seg.str h :: rest)) = _
        simp only [normalize, afterMerge]
        cases hp : processComps
            (Seg.str ⟨fpReplace (mergeStep h rest).1.data⟩ :: (mergeStep h rest).2)
            true with
        | error e =>
          have h2 := processComps_isOk
            (Seg.str ⟨fpReplace (mergeStep h rest).1.data⟩ :: (mergeStep h rest).2) true
          rw [hp] at h2
          simp only [List.all_cons, Seg.isStr, Bool.true_and] at h2 ⊢
          exact h2
        | ok cs =>
          have h2 := processComps_isOk
            (Seg.str ⟨fpReplace (mergeStep h rest).1.data⟩ :: (mergeStep h rest).2) true
          rw [hp] at h2
          simp only [List.all_cons, Seg.isStr, Bool.true_and] at h2 ⊢
          exact h2
  exact ⟨hmain, fun l h => by rw [hmain l]; exact afterMerge_all l h⟩

/-- C4 witness: the all-string list ["a"] joins without throwing. -/
theorem urlJoin_throw_characterization_witness :
    exceptIsOk (urlJoin [Seg.str "a"]) = true :=
  urlJoin_throw_characterization.2 [Seg.str "a"] (by decide)

/-- Field projection of an explicitly built string. -/
theorem strData_mk (l : Chars) : String.data ⟨l⟩ = l := rfl

/-- Intercalating a one-element list yields the element. -/
theorem intercalate_single {α : Type} (sep : List α) (x : List α) :
    List.intercalate sep [x] = x := by
  simp [List.intercalate]

/-- Splitting a string without the separator yields the whole string. -/
theorem splitOn_no_sep : ∀ l : Chars, l.count '?' = 0 → splitOn '?' l = [l] := by
  intro l
  induction l with
  | nil => intro _; rfl
  | cons c xs ih =>
    intro h
    have hc : ¬ c = '?' := by
      intro hc
      subst hc
      simp [List.count_cons] at h
    have hx : xs.count '?' = 0 := by
      simp [List.count_cons, hc] at h
      exact h
    simp only [splitOn, if_neg hc]
    rw [ih hx]

/-- Splitting a string with a single separator yields its two halves. -/
theorem splitOn_one_sep (b : Chars) (hb : b.count '?' = 0) :
    ∀ a : Chars, a.count '?' = 0 → splitOn '?' (a ++ '?' :: b) = [a, b] := by
  intro a
  induction a with
  | nil =>
    intro _
    show splitOn '?' ('?' :: b) = [[], b]
    have h1 : splitOn '?' ('?' :: b) = [] :: splitOn '?' b := rfl
    rw [h1, splitOn_no_sep b hb]
  | cons c xs ih =>
    intro ha
    have hc : ¬ c = '?' := by
      intro hc
      subst hc
      simp [List.count_cons] at ha
    have hx : xs.count '?' = 0 := by
      simp [List.count_cons, hc] at ha
      exact ha
    simp only [List.cons_append, splitOn, if_neg hc, List.append_eq]
    rw [ih hx]

/-- A list with exactly one '?' decomposes around it. -/
theorem count_one_decomp : ∀ l : Chars, l.count '?' = 1 →
    ∃ a b, l = a ++ '?' :: b ∧ a.count '?' = 0 ∧ b.count '?' = 0 := by
  intro l
  induction l with
  | nil => intro h; simp at h
  | cons c xs ih =>
    intro h
    by_cases hc : c = '?'
    · subst hc
      have hx : xs.count '?' = 0 := by
        simp [List.count_cons] at h
        exact h
      exact ⟨[], xs, rfl, rfl, hx⟩
    · have hx : xs.count '?' = 1 := by
        simp [List.count_cons, hc] at h
        exact h
      obtain ⟨a, b, heq, ha, hb⟩ := ih hx
      refine ⟨c :: a, b, by rw [heq]; rfl, ?_, hb⟩
      simp [List.count_cons, hc, ha]

/-- The query-merge step fixes any string with at most one '?'. -/
theorem queryMergeL_count_le_one (l : Chars) (hle : l.count '?' ≤ 1) :
    queryMergeL l = l := by
  rcases Nat.lt_or_ge (l.count '?') 1 with h0 | h1
  · have h0 : l.count '?' = 0 := by omega
    simp [queryMergeL, splitOn_no_sep l h0]
  · have h1 : l.count '?' = 1 := by omega
    obtain ⟨a, b, heq, ha, hb⟩ := count_one_decomp l h1
    subst heq
    unfold queryMergeL
    rw [splitOn_one_sep b hb a ha]
    simp [intercalate_single]

/-- The component loop on a single non-empty stable component. -/
theorem processComps_single (rd : Chars) (hne : rd.isEmpty = false)
    (hct : collapseTrailingSlashes rd = rd) :
    processComps [Seg.str ⟨rd⟩] true = .ok [rd] := by
  simp [processComps, strData_mk, hne, hct]

/-- `normalize` fixes a single-segment string that is protocol-stable,
has at most one trailing slash, is unchanged by the slash-before-query
removal, and has at most one '?'. -/
theorem normalize_single_stable (rd : Chars)
    (hfp : fpReplace rd = rd) (hct : collapseTrailingSlashes rd = rd)
    (hpr : postReplace rd = rd) (hq : rd.count '?' ≤ 1) :
    normalize [Seg.str ⟨rd⟩] = .ok ⟨rd⟩ := by
  by_cases he : rd = []
  · subst he
    decide
  · have hne : rd.isEmpty = false := by
      cases rd with
      | nil => exact absurd rfl he
      | cons c t => rfl
    simp only [normalize, mergeStep, strData_mk]
    rw [hfp, processComps_single rd hne hct]
    show (Except.ok (String.mk (queryMergeL (postReplace (List.intercalate ['/'] [rd])))) :
        Except String String) = Except.ok (String.mk rd)
    rw [intercalate_single, hpr, queryMergeL_count_le_one rd hq]

/-- C5 counterexample: the single-segment list ["a//?b"] joins to
"a/?b", which contains exactly one "?", yet applying urlJoin to that
output gives "a?b" — the slash-before-query removal is a single pass,
so urlJoin is not idempotent on this output even though it has at most
one "?". -/
theorem urlJoin_idem_cex :
    urlJoin [Seg.str "a//?b"] = .ok "a/?b" ∧
    ("a/?b" : String).data.count '?' ≤ 1 ∧
    urlJoin [Seg.str "a/?b"] = .ok "a?b" ∧
    ("a?b" : String) ≠ "a/?b" := by
  refine ⟨by decide, by decide, by decide, by decide⟩

/-- C5 amended: urlJoin is pure and deterministic, and it is idempotent
on an output `r` that (as the counterexample forces) is additionally
left unchanged by the protocol normalization, the trailing-slash
collapse, and the slash-before-query/fragment removal, and contains at
most one "?": for such `r`, `urlJoin([r]) = r`. -/
theorem urlJoin_idem_amended (l : List Seg) (r : String)
    (_hout : urlJoin l = .ok r)
    (hfp : fpReplace r.data = r.data)
    (hct : collapseTrailingSlashes r.data = r.data)
    (hpr : postReplace r.data = r.data)
    (hq : r.data.count '?' ≤ 1) :
    urlJoin [Seg.str r] = .ok r :=
  normalize_single_stable r.data hfp hct hpr hq

/-- C5 witness: urlJoin("http://a", "b") = "http://a/b", and urlJoin on
that output returns it unchanged. -/
theorem urlJoin_idem_amended_witness :
    urlJoin [Seg.str "http://a/b"] = .ok "http://a/b" :=
  urlJoin_idem_amended [Seg.str "http://a", Seg.str "b"] "http://a/b"
    (by decide) (by decide) (by decide) (by decide) (by decide)

/-- C6 witness: the theorem applied at a concrete error and browser
state. -/
theorem pollData_error_spec_witness :
    pollData (.error "boom") testDom =
      { testDom with consoleErrors := testDom.consoleErrors ++ ["boom"] } ∧
    (pollData (.error "boom") testDom).deploymentsHtml = testDom.deploymentsHtml :=
  pollData_error_spec "boom" testDom

/-- C9 witness: a browser-supplied "order" parameter does not change
the built request. -/
theorem deploymentsRoute_fixed_order_witness :
    deploymentsRoute testClient [("order", "asc"), ("projectId", "p1")] =
      deploymentsRoute testClient [("projectId", "p1")] :=
  deploymentsRoute_fixed_order.2 testClient [("projectId", "p1")] "asc"

end Subhosting
